import Mathlib

/-!
Verification development for the File-Searcher-NET repository (`src/app.py`).

The file embeds the Python program shallowly in Lean:

* the filesystem visible to a request is a tree of directories and files
  (`FSNode`); the root argument of a search is an `Option FSNode`
  (`none` models a path for which `os.path.exists` is false);
* `os.walk`, `os.path.join`, `os.path.basename`, `str.strip`,
  `str.endswith` and Python substring containment (`in`) are modelled by
  `walkNode`, `joinPath`, `basename`, `pyStrip`, `pyEndswith` and
  `pyInStr`; `pyStrip` covers the ASCII whitespace characters;
* a file's bytes are modelled as the list of decoded lines Python's line
  iteration would yield (each line keeps its terminator except possibly
  the last); a file on which `open`/read raises is marked `readable :=
  false`;
* `czytelny_czas` takes the elapsed seconds as a rational; `pyInt`
  models Python `int()` (truncation toward zero) and `Int.fdiv`/`Int.fmod`
  model Python `divmod`;
* the endpoint handlers `search_files` and `search_uploaded_files`
  return an `HTTPResponse`; the `try`/`except` structure of the handlers
  is made explicit by `TryOutcome`: a `fastapi.HTTPException` raised
  inside the `try` body is an `Exception`, hence caught by the handler's
  final `except Exception` clause, whose `str(e)` is
  `"{status_code}: {detail}"`.
-/

namespace App

/-- ASCII whitespace, the characters `str.strip()` removes on ASCII text. -/
def pyWhitespace (c : Char) : Bool :=
  c = ' ' || c = '\t' || c = '\n' || c = '\r' || c = '\x0b' || c = '\x0c'

/-- Python `s.strip()`: drop leading and trailing whitespace. -/
def pyStrip (s : String) : String :=
  ⟨((s.data.dropWhile pyWhitespace).reverse.dropWhile pyWhitespace).reverse⟩

/-- Modelled from the spec: stripping ONLY trailing whitespace (including the
line terminator), the operation the MatchRecord description speaks of.
Used to compare the spec's wording with the source's `str.strip()`. -/
def stripTrailingSpec (s : String) : String :=
  ⟨(s.data.reverse.dropWhile pyWhitespace).reverse⟩

/-- Substring containment on character lists: Python `needle in hay`. -/
def containsSub : List Char → List Char → Bool
  | needle, [] => needle.isEmpty
  | needle, c :: t => needle.isPrefixOf (c :: t) || containsSub needle t

/-- Python `sub in s` for strings (case-sensitive literal substring). -/
def pyInStr (sub s : String) : Bool := containsSub sub.data s.data

/-- Python `s.endswith(suf)` (case-sensitive suffix match on the name). -/
def pyEndswith (s suf : String) : Bool := suf.data.isSuffixOf s.data

/-- Python `os.path.join(root, name)` on POSIX with a single name part. -/
def joinPath (root name : String) : String :=
  if root = "" then name
  else if root.data.getLast? = some '/' then root ++ name
  else root ++ "/" ++ name

/-- Python `os.path.basename`: everything after the last slash. -/
def basename (s : String) : String :=
  ⟨(s.data.reverse.takeWhile (fun c => c ≠ '/')).reverse⟩

/-- Python `int()` on a rational: truncation toward zero. -/
def pyInt (q : ℚ) : Int := q.num.tdiv (q.den : Int)

/-- Request body of `POST /search` (pydantic model `SearchRequest`). -/
structure SearchRequest where
  start_path : String
  rozszerzenie : String
  fraza : String
deriving Repr, DecidableEq

/-- One match (pydantic model `SearchResult`): file path, 1-based line
number, line content. -/
structure SearchResult where
  sciezka : String
  nr_linii : Nat
  tresc : String
deriving Repr, DecidableEq

/-- Response body (pydantic model `SearchResponse`). -/
structure SearchResponse where
  wyniki : List SearchResult
  czas_wyszukiwania : String
  liczba_znalezionych : Nat
  status : String
deriving Repr, DecidableEq

/-- `czytelny_czas` from `src/app.py`: `minuty, sekundy = divmod(int(sekundy), 60)`;
`godziny, minuty = divmod(minuty, 60)`; then the three-way template cascade. -/
def czytelny_czas (sekundy : ℚ) : String :=
  let t : Int := pyInt sekundy
  let minuty : Int := t.fdiv 60
  let sek : Int := t.fmod 60
  let godziny : Int := minuty.fdiv 60
  let minuty2 : Int := minuty.fmod 60
  if godziny > 0 then
    toString godziny ++ " godz. " ++ toString minuty2 ++ " min " ++ toString sek ++ " sek"
  else if minuty2 > 0 then
    toString minuty2 ++ " minut i " ++ toString sek ++ " sekund"
  else
    toString sek ++ " sekund"

/-- Contents of one regular file as the scanner sees it: the decoded lines
(Python line iteration with `errors='ignore'`), and whether opening/reading
the file succeeds (`false` models a per-file `OSError`/permission error). -/
structure FileData where
  lines : List String
  readable : Bool
deriving Repr, DecidableEq

mutual

/-- A filesystem node: a regular file or a directory with named entries. -/
inductive FSNode where
  | file : FileData → FSNode
  | dir : FSEntries → FSNode

/-- Ordered named entries of a directory (scandir enumeration order). -/
inductive FSEntries where
  | nil : FSEntries
  | cons : String → FSNode → FSEntries → FSEntries

end

/-- The regular files of one directory listing, in order (the `files` list
a step of `os.walk` yields), paired with their names. -/
def filesOf : FSEntries → List (String × FileData)
  | .nil => []
  | .cons n (.file fd) rest => (n, fd) :: filesOf rest
  | .cons _ (.dir _) rest => filesOf rest

mutual

/-- Python `os.walk(path)` (top-down): on a directory, yield the directory
with its regular files, then recurse into each subdirectory in order; on a
path that is a regular file, `scandir` raises and the walk yields nothing. -/
def walkNode (path : String) : FSNode → List (String × List (String × FileData))
  | .file _ => []
  | .dir es => (path, filesOf es) :: walkDirs path es

/-- The recursive part of `os.walk`: walk each subdirectory entry. -/
def walkDirs (path : String) : FSEntries → List (String × List (String × FileData))
  | .nil => []
  | .cons n (.dir es) rest => walkNode (joinPath path n) (.dir es) ++ walkDirs path rest
  | .cons _ (.file _) rest => walkDirs path rest

end

/-- The inner loop of `przeszukaj_katalog` over one open file: enumerate the
lines starting at `nr`, and for each line containing the phrase append a
record with the path, the line number and the stripped line. -/
def scanLines (fraza sciezka : String) : Nat → List String → List SearchResult
  | _, [] => []
  | nr, linia :: rest =>
    (if pyInStr fraza linia then
      [{ sciezka := sciezka, nr_linii := nr, tresc := pyStrip linia }]
     else []) ++ scanLines fraza sciezka (nr + 1) rest

/-- The file loop of `przeszukaj_katalog` over the walk's output: for each
file whose name ends with the extension, open it (an unreadable file is
caught and skipped) and scan its lines. -/
def przeszukajWalk (rozszerzenie fraza : String)
    (entries : List (String × List (String × FileData))) : List SearchResult :=
  entries.flatMap fun e =>
    e.2.flatMap fun f =>
      if pyEndswith f.1 rozszerzenie then
        if f.2.readable then
          scanLines fraza (joinPath e.1 f.1) 1 f.2.lines
        else []
      else []

/-- `przeszukaj_katalog` from `src/app.py`: raise
`ValueError("Ścieżka nie istnieje: ...")` when the path does not exist,
otherwise walk the tree and collect every matching line. The filesystem at
`start_path` is `fs` (`none` when `os.path.exists` is false). -/
def przeszukaj_katalog (fs : Option FSNode) (start_path rozszerzenie fraza : String) :
    Except String (List SearchResult) :=
  match fs with
  | none => .error ("Ścieżka nie istnieje: " ++ start_path)
  | some node => .ok (przeszukajWalk rozszerzenie fraza (walkNode start_path node))

/-- Outcome of a handler's `try` body: normal value, a `ValueError`, or a
raised `fastapi.HTTPException` (which is itself an `Exception`). -/
inductive TryOutcome (α : Type) where
  | ok : α → TryOutcome α
  | valueError : String → TryOutcome α
  | httpExc : Nat → String → TryOutcome α
deriving Repr, DecidableEq

/-- What the HTTP caller receives: a 200 body or an error status + detail. -/
inductive HTTPResponse where
  | ok : SearchResponse → HTTPResponse
  | httpError : Nat → String → HTTPResponse
deriving Repr, DecidableEq

/-- The `try` body of the `/search` handler: validate the phrase (raising
`HTTPException(400, ...)` when its strip is falsy), run the search, build
the response. `elapsed` is the measured wall-clock duration in seconds. -/
def search_files_try (fs : Option FSNode) (request : SearchRequest) (elapsed : ℚ) :
    TryOutcome SearchResponse :=
  if pyStrip request.fraza = "" then
    .httpExc 400 "Fraza nie może być pusta"
  else
    match przeszukaj_katalog fs request.start_path request.rozszerzenie request.fraza with
    | .error msg => .valueError msg
    | .ok wyniki =>
      .ok { wyniki := wyniki
            czas_wyszukiwania := czytelny_czas elapsed
            liczba_znalezionych := wyniki.length
            status := "sukces" }

/-- The `/search` handler: its `except ValueError` clause turns the missing
path into a 404; its `except Exception` clause catches every other
exception — including the `HTTPException(400)` raised by the validation,
whose `str(e)` is `"400: ..."` — and re-raises it as a 500 with detail
`"Błąd wewnętrzny: " + str(e)`. -/
def search_files (fs : Option FSNode) (request : SearchRequest) (elapsed : ℚ) :
    HTTPResponse :=
  match search_files_try fs request elapsed with
  | .ok r => .ok r
  | .valueError msg => .httpError 404 msg
  | .httpExc code detail =>
    .httpError 500 ("Błąd wewnętrzny: " ++ toString code ++ ": " ++ detail)

/-- One uploaded file of `POST /search-uploaded`: its client-supplied name
and its content as decoded lines. -/
structure UploadedFile where
  filename : String
  content : List String
deriving Repr, DecidableEq

/-- Write one staged file into the temporary directory's listing: creating
a file under an existing name overwrites its content in place, otherwise
the file is appended to the listing. -/
def writeStaged (dirFiles : List (String × FileData)) (name : String)
    (content : List String) : List (String × FileData) :=
  match dirFiles with
  | [] => [(name, { lines := content, readable := true })]
  | (n, fd) :: rest =>
    if n = name then (n, { lines := content, readable := true }) :: rest
    else (n, fd) :: writeStaged rest name content

/-- The staging loop of `/search-uploaded`: each uploaded file whose name
ends with the extension (or every file when the filter is `""`) is written
into the temporary directory. -/
def stage (rozszerzenie : String) (files : List UploadedFile) :
    List (String × FileData) :=
  files.foldl
    (fun acc f =>
      if pyEndswith f.filename rozszerzenie || rozszerzenie = "" then
        writeStaged acc f.filename f.content
      else acc)
    []

/-- Turn a flat staged listing into the temporary directory's node. -/
def dirOfListing : List (String × FileData) → FSEntries
  | [] => .nil
  | (n, fd) :: rest => .cons n (.file fd) (dirOfListing rest)

/-- The `/search-uploaded` handler: stage the filtered uploads into the
temporary directory `temp_dir`, run `przeszukaj_katalog` on it, replace
each result's path by `os.path.basename` of itself, and answer 200; any
exception becomes a 500. The model's staging and search are total, so the
500 branch is unreachable here. -/
def search_uploaded_files (fraza rozszerzenie : String) (files : List UploadedFile)
    (temp_dir : String) (elapsed : ℚ) : HTTPResponse :=
  let staged := stage rozszerzenie files
  match przeszukaj_katalog (some (.dir (dirOfListing staged))) temp_dir rozszerzenie fraza with
  | .error msg => .httpError 500 ("Błąd przetwarzania plików: " ++ msg)
  | .ok temp_wyniki =>
    let wyniki := temp_wyniki.map fun w => { w with sciezka := basename w.sciezka }
    .ok { wyniki := wyniki
          czas_wyszukiwania := czytelny_czas elapsed
          liczba_znalezionych := wyniki.length
          status := "sukces" }

/-- Modelled from the spec: the formatter cascade of §4.2 on whole seconds,
decomposing into hours, minutes, seconds by integer division (3600, then
60) and choosing one of the three templates in order. Used to compare the
source's `czytelny_czas` with the spec's description. -/
def czasCascadeSpec (s : Nat) : String :=
  let g := s / 3600
  let m := s / 60 % 60
  let sek := s % 60
  if g > 0 then
    toString g ++ " godz. " ++ toString m ++ " min " ++ toString sek ++ " sek"
  else if m > 0 then
    toString m ++ " minut i " ++ toString sek ++ " sekund"
  else
    toString sek ++ " sekund"

/-! ## Helper lemmas -/

theorem flatMap_congr_mem {α β : Type} {l : List α} {f g : α → List β}
    (h : ∀ a ∈ l, f a = g a) : l.flatMap f = l.flatMap g := by
  induction l with
  | nil => rfl
  | cons a t ih =>
    simp only [List.flatMap_cons]
    rw [h a (List.mem_cons_self a t), ih fun x hx => h x (List.mem_cons_of_mem a hx)]

theorem flatMap_of_filter {α β : Type} (p : α → Bool) (g : α → List β) (l : List α) :
    (l.filter p).flatMap g = l.flatMap fun a => if p a then g a else [] := by
  induction l with
  | nil => rfl
  | cons a t ih => cases h : p a <;> simp [List.filter_cons, h, ih]

theorem pyInt_natCast (n : ℕ) : pyInt (n : ℚ) = (n : ℤ) := by
  simp [pyInt, Int.tdiv_one]

theorem pyInt_intCast (k : ℤ) : pyInt ((k : ℤ) : ℚ) = k := by
  simp [pyInt, Int.tdiv_one]

theorem toString_intCast_nat (n : ℕ) : toString ((n : ℕ) : ℤ) = toString n := rfl

theorem czytelny_czas_trunc (q : ℚ) : czytelny_czas q = czytelny_czas ((pyInt q : ℤ) : ℚ) := by
  simp only [czytelny_czas, pyInt_intCast]

theorem pyInt_eq_floor {q : ℚ} (hq : 0 ≤ q) : pyInt q = ⌊q⌋ := by
  rw [Rat.floor_def, pyInt, Int.tdiv_eq_ediv (Rat.num_nonneg.mpr hq) (by positivity)]

/-! ## Claim theorems -/

/-- Claim C1 (code bug): for an empty/whitespace-only phrase the handler
raises `HTTPException(400)` before any filesystem access — the result does
not depend on `fs` — but the handler's own `except Exception` clause
catches that exception and re-raises it as HTTP 500, so the caller sees
status 500, not the 400 the spec states. -/
theorem empty_phrase_yields_500 (fs : Option FSNode) (elapsed : ℚ) :
    search_files fs { start_path := "/brak", rozszerzenie := ".txt", fraza := "   " } elapsed
      = .httpError 500 ("Błąd wewnętrzny: 400: Fraza nie może być pusta") := by
  have h : pyStrip ("   ") = "" := by decide
  simp [search_files, search_files_try, h]
  rfl

/-- Claim C2: when the start path does not exist, `przeszukaj_katalog`
raises `ValueError("Ścieżka nie istnieje: ...")`, which the handler's
`except ValueError` clause surfaces as HTTP 404 naming the missing path;
no match records are produced. -/
theorem missing_path_yields_404 (start roz fraza : String) (elapsed : ℚ)
    (h : pyStrip fraza ≠ "") :
    przeszukaj_katalog none start roz fraza
        = .error ("Ścieżka nie istnieje: " ++ start)
    ∧ search_files none { start_path := start, rozszerzenie := roz, fraza := fraza } elapsed
        = .httpError 404 ("Ścieżka nie istnieje: " ++ start) := by
  constructor
  · rfl
  · simp [search_files, search_files_try, przeszukaj_katalog, h]

theorem missing_path_yields_404_witness :
    przeszukaj_katalog none ("/brak") (".txt") ("x")
        = .error ("Ścieżka nie istnieje: " ++ "/brak")
    ∧ search_files none { start_path := "/brak", rozszerzenie := ".txt", fraza := "x" } 0
        = .httpError 404 ("Ścieżka nie istnieje: " ++ "/brak") :=
  missing_path_yields_404 ("/brak") (".txt") ("x") 0 (by decide)

/-- Claim C6: `czytelny_czas` first truncates its input to whole seconds
(never rounding up: the truncation `pyInt` satisfies `pyInt q ≤ q < pyInt
q + 1` on non-negative inputs and formatting only depends on it), then on
whole seconds decomposes by integer division into hours/minutes/seconds and
selects one of the three templates in cascade, as `czasCascadeSpec` states;
the four concrete examples of the spec hold. -/
theorem czytelny_czas_ok :
    (∀ q : ℚ, czytelny_czas q = czytelny_czas ((pyInt q : ℤ) : ℚ))
    ∧ (∀ q : ℚ, 0 ≤ q → ((pyInt q : ℚ) ≤ q ∧ q < (pyInt q : ℚ) + 1))
    ∧ (∀ n : ℕ, czytelny_czas (n : ℚ) = czasCascadeSpec n)
    ∧ czytelny_czas 45 = "45 sekund"
    ∧ czytelny_czas 125 = "2 minut i 5 sekund"
    ∧ czytelny_czas 3725 = "1 godz. 2 min 5 sek"
    ∧ czytelny_czas (9 / 10) = "0 sekund" := by
  refine ⟨czytelny_czas_trunc, ?_, ?_, by decide, by decide, by decide, ?_⟩
  · intro q hq
    rw [pyInt_eq_floor hq]
    exact ⟨Int.floor_le q, Int.lt_floor_add_one q⟩
  · intro n
    have h60 : ((60 : ℤ)) = ((60 : ℕ) : ℤ) := rfl
    simp only [czytelny_czas, pyInt_natCast, czasCascadeSpec, h60,
      Int.fdiv_eq_ediv _ (by positivity), Int.fmod_eq_emod _ (by positivity),
      ← Int.ofNat_ediv, ← Int.ofNat_emod, toString_intCast_nat,
      Nat.div_div_eq_div_mul, Int.natCast_pos]
  · have h : pyInt (9 / 10 : ℚ) = 0 := by
      rw [pyInt_eq_floor (by norm_num)]
      norm_num
    rw [czytelny_czas_trunc (9 / 10), h]
    decide

theorem czytelny_czas_ok_witness :
    (pyInt 125 : ℚ) ≤ 125 ∧ (125 : ℚ) < (pyInt 125 : ℚ) + 1 :=
  czytelny_czas_ok.2.1 125 (by norm_num)

theorem scanLines_eq_filterMap (fraza sciezka : String) (s : Nat) (lines : List String) :
    scanLines fraza sciezka s lines =
      (List.range lines.length).filterMap fun i =>
        if pyInStr fraza (lines.getD i ("")) then
          some { sciezka := sciezka, nr_linii := s + i, tresc := pyStrip (lines.getD i ("")) }
        else none := by
  induction lines generalizing s with
  | nil => rfl
  | cons l rest ih =>
    cases hc : pyInStr fraza l <;>
      simp [scanLines, hc, List.range_succ_eq_map, List.filterMap_cons, List.filterMap_map,
        Function.comp_def, ih (s + 1), Nat.succ_eq_add_one, Nat.add_comm, Nat.add_assoc,
        Nat.add_left_comm]

/-- Claim C3: within one scanned file, a record is produced for a line iff
the phrase occurs in it as a case-sensitive literal substring — exactly one
record per matching line — carrying the file's path and the 1-based line
number; and on the file `["alpha","beta","alpha again"]` with phrase
`"alpha"` exactly the two records with line numbers 1 and 3 result. -/
theorem scan_produces_record_iff :
    (∀ fraza sciezka lines, scanLines fraza sciezka 1 lines =
      (List.range lines.length).filterMap fun i =>
        if pyInStr fraza (lines.getD i ("")) then
          some { sciezka := sciezka, nr_linii := i + 1, tresc := pyStrip (lines.getD i ("")) }
        else none)
    ∧ scanLines ("alpha") ("plik.txt") 1 ["alpha\n", "beta\n", "alpha again"] =
        [{ sciezka := "plik.txt", nr_linii := 1, tresc := "alpha" },
         { sciezka := "plik.txt", nr_linii := 3, tresc := "alpha again" }] := by
  refine ⟨fun fraza sciezka lines => ?_, by decide⟩
  rw [scanLines_eq_filterMap]
  simp [Nat.add_comm]

/-- Claim C8 counterexample: on the line `"  alpha  \n"`, the produced
record's content is `"alpha"` (both leading and trailing whitespace
stripped), not the claim's trailing-only strip `"  alpha"`. -/
theorem tresc_not_trailing_strip_only :
    ∃ r ∈ scanLines ("alpha") ("plik.txt") 1 [("  alpha  \n")],
      r.tresc ≠ stripTrailingSpec ("  alpha  \n") := by
  decide

/-- Claim C8 (amended): every produced record's content equals the matched
line with leading AND trailing whitespace (including the line terminator)
stripped, i.e. Python `line.strip()`. -/
theorem tresc_is_fully_stripped (fraza sciezka : String) (lines : List String)
    (r : SearchResult) (h : r ∈ scanLines fraza sciezka 1 lines) :
    r.tresc = pyStrip (lines.getD (r.nr_linii - 1) ("")) := by
  rw [scanLines_eq_filterMap] at h
  rcases List.mem_filterMap.mp h with ⟨i, _, hi⟩
  by_cases hp : pyInStr fraza (lines.getD i ("")) = true
  · rw [if_pos hp] at hi
    cases hi
    simp
  · rw [if_neg hp] at hi
    cases hi

theorem tresc_is_fully_stripped_witness :
    ({ sciezka := "f", nr_linii := 1, tresc := "alpha" } : SearchResult).tresc
      = pyStrip ([("  alpha  \n")].getD (1 - 1) ("")) :=
  tresc_is_fully_stripped ("alpha") ("f") [("  alpha  \n")] _ (by decide)

/-- Claim C4: a file whose name does not end with the extension filter
contributes nothing — the output is unchanged when every non-matching file
is dropped from the walk's listings, whatever its content — and with the
empty extension filter every enumerated (readable) file is scanned. -/
theorem extension_filter_ok :
    (∀ roz fraza entries, przeszukajWalk roz fraza entries =
      przeszukajWalk roz fraza
        (entries.map fun e => (e.1, e.2.filter fun f => pyEndswith f.1 roz)))
    ∧ (∀ fraza entries, przeszukajWalk ("") fraza entries =
        entries.flatMap fun e => e.2.flatMap fun f =>
          if f.2.readable then scanLines fraza (joinPath e.1 f.1) 1 f.2.lines else []) := by
  constructor
  · intro roz fraza entries
    unfold przeszukajWalk
    rw [List.flatMap_map]
    refine flatMap_congr_mem fun e _ => ?_
    dsimp only
    rw [flatMap_of_filter]
    refine flatMap_congr_mem fun f _ => ?_
    cases h : pyEndswith f.1 roz <;> simp [h]
  · intro fraza entries
    unfold przeszukajWalk
    refine flatMap_congr_mem fun e _ => flatMap_congr_mem fun f _ => ?_
    have h : pyEndswith f.1 ("") = true := by
      simp [pyEndswith]
    rw [if_pos h]

/-- Claim C5: an unreadable file is skipped and the traversal continues —
the output is unchanged when every unreadable file is dropped from the
walk's listings, so all matches of the readable files are still returned —
and on an existing root the routine always returns normally (the per-file
failure is never propagated to the caller). -/
theorem unreadable_file_skipped :
    (∀ roz fraza entries, przeszukajWalk roz fraza entries =
      przeszukajWalk roz fraza
        (entries.map fun e => (e.1, e.2.filter fun f => f.2.readable)))
    ∧ (∀ node start roz fraza, ∃ l,
        przeszukaj_katalog (some node) start roz fraza = Except.ok l) := by
  constructor
  · intro roz fraza entries
    unfold przeszukajWalk
    rw [List.flatMap_map]
    refine flatMap_congr_mem fun e _ => ?_
    dsimp only
    rw [flatMap_of_filter]
    refine flatMap_congr_mem fun f _ => ?_
    cases hr : f.2.readable <;> cases he : pyEndswith f.1 roz <;> simp [hr, he]
  · intro node start roz fraza
    exact ⟨_, rfl⟩

theorem search_files_try_count {fs : Option FSNode} {request : SearchRequest}
    {elapsed : ℚ} {r : SearchResponse}
    (h : search_files_try fs request elapsed = .ok r) :
    r.liczba_znalezionych = r.wyniki.length := by
  unfold search_files_try at h
  split at h
  · cases h
  · split at h
    · cases h
    · cases h
      rfl

/-- Claim C7: in every successful (`200`) response of both `POST /search`
and `POST /search-uploaded`, the `liczba_znalezionych` field equals the
length of the `wyniki` list. -/
theorem count_matches_length :
    (∀ fs request elapsed r, search_files fs request elapsed = .ok r →
      r.liczba_znalezionych = r.wyniki.length)
    ∧ (∀ fraza roz files temp_dir elapsed r,
        search_uploaded_files fraza roz files temp_dir elapsed = .ok r →
        r.liczba_znalezionych = r.wyniki.length) := by
  constructor
  · intro fs request elapsed r h
    unfold search_files at h
    split at h
    next a heq =>
      cases h
      exact search_files_try_count heq
    next => cases h
    next => cases h
  · intro fraza roz files temp_dir elapsed r h
    unfold search_uploaded_files przeszukaj_katalog at h
    dsimp only at h
    cases h
    rfl

theorem count_matches_length_witness :
    ({ wyniki := [], czas_wyszukiwania := czytelny_czas 0, liczba_znalezionych := 0,
        status := "sukces" } : SearchResponse).liczba_znalezionych
      = ({ wyniki := [], czas_wyszukiwania := czytelny_czas 0, liczba_znalezionych := 0,
           status := "sukces" } : SearchResponse).wyniki.length :=
  count_matches_length.1 (some (.file { lines := [], readable := true }))
    { start_path := "/p", rozszerzenie := ".txt", fraza := "x" } 0 _ (by decide)

/-- Claim C10: `przeszukaj_katalog` raises its path-not-found `ValueError`
exactly when the start path does not exist; when the start path is an
existing regular file, `os.walk` yields nothing, the routine returns the
empty list, and the `/search` request succeeds with zero matches. -/
theorem file_root_yields_empty_success :
    (∀ fs start roz fraza,
      (∃ msg, przeszukaj_katalog fs start roz fraza = .error msg) ↔ fs = none)
    ∧ (∀ fd start roz fraza,
        przeszukaj_katalog (some (.file fd)) start roz fraza = .ok [])
    ∧ (∀ fd start roz fraza elapsed, pyStrip fraza ≠ "" →
        search_files (some (.file fd))
            { start_path := start, rozszerzenie := roz, fraza := fraza } elapsed
          = .ok { wyniki := [], czas_wyszukiwania := czytelny_czas elapsed,
                  liczba_znalezionych := 0, status := "sukces" }) := by
  refine ⟨fun fs start roz fraza => ?_, fun fd start roz fraza => rfl,
    fun fd start roz fraza elapsed h => ?_⟩
  · cases fs <;> simp [przeszukaj_katalog]
  · simp [search_files, search_files_try, przeszukaj_katalog, h, walkNode, przeszukajWalk]

theorem file_root_yields_empty_success_witness :
    search_files (some (.file { lines := ["x\n"], readable := true }))
        { start_path := "/plik.txt", rozszerzenie := ".txt", fraza := "x" } 0
      = .ok { wyniki := [], czas_wyszukiwania := czytelny_czas 0,
              liczba_znalezionych := 0, status := "sukces" } :=
  file_root_yields_empty_success.2.2 { lines := ["x\n"], readable := true }
    ("/plik.txt") (".txt") ("x") 0 (by decide)

theorem pyEndswith_empty (s : String) : pyEndswith s ("") = true := by
  simp [pyEndswith]

theorem filesOf_dirOfListing (l : List (String × FileData)) :
    filesOf (dirOfListing l) = l := by
  induction l with
  | nil => rfl
  | cons p rest ih =>
    obtain ⟨n, fd⟩ := p
    simp [dirOfListing, filesOf, ih]

theorem walkDirs_dirOfListing (td : String) (l : List (String × FileData)) :
    walkDirs td (dirOfListing l) = [] := by
  induction l with
  | nil => rfl
  | cons p rest ih =>
    obtain ⟨n, fd⟩ := p
    simp [dirOfListing, walkDirs, ih]

theorem walkNode_dirOfListing (td : String) (l : List (String × FileData)) :
    walkNode td (.dir (dirOfListing l)) = [(td, l)] := by
  rw [walkNode, filesOf_dirOfListing, walkDirs_dirOfListing]

theorem mem_writeStaged {acc : List (String × FileData)} {name : String}
    {content : List String} {p : String × FileData}
    (hp : p ∈ writeStaged acc name content) :
    p = (name, { lines := content, readable := true }) ∨ p ∈ acc := by
  induction acc with
  | nil => simpa [writeStaged] using hp
  | cons q rest ih =>
    obtain ⟨n, fd⟩ := q
    by_cases h : n = name
    · rw [writeStaged, if_pos h] at hp
      rcases List.mem_cons.mp hp with h1 | h1
      · exact Or.inl (by rw [h1, h])
      · exact Or.inr (List.mem_cons_of_mem _ h1)
    · rw [writeStaged, if_neg h] at hp
      rcases List.mem_cons.mp hp with h1 | h1
      · exact Or.inr (h1 ▸ List.mem_cons_self _ _)
      · rcases ih h1 with h2 | h2
        · exact Or.inl h2
        · exact Or.inr (List.mem_cons_of_mem _ h2)

theorem mem_stage_aux (roz : String) (fs : List UploadedFile) :
    ∀ (acc : List (String × FileData)) (p : String × FileData),
      p ∈ fs.foldl
        (fun acc f =>
          if pyEndswith f.filename roz || roz = "" then
            writeStaged acc f.filename f.content
          else acc) acc →
      p ∈ acc ∨ ∃ f ∈ fs, (pyEndswith f.filename roz || roz = "") = true ∧
        p = (f.filename, { lines := f.content, readable := true }) := by
  induction fs with
  | nil => exact fun acc p hp => Or.inl hp
  | cons f rest ih =>
    intro acc p hp
    rw [List.foldl_cons] at hp
    rcases ih _ p hp with h1 | h1
    · by_cases hc : (pyEndswith f.filename roz || roz = "") = true
      · rw [if_pos hc] at h1
        rcases mem_writeStaged h1 with h2 | h2
        · exact Or.inr ⟨f, List.mem_cons_self _ _, hc, h2⟩
        · exact Or.inl h2
      · rw [if_neg hc] at h1
        exact Or.inl h1
    · rcases h1 with ⟨g, hg, hgc, he⟩
      exact Or.inr ⟨g, List.mem_cons_of_mem _ hg, hgc, he⟩

theorem mem_stage {roz : String} {files : List UploadedFile} {p : String × FileData}
    (hp : p ∈ stage roz files) :
    ∃ f ∈ files, (pyEndswith f.filename roz || roz = "") = true ∧
      p = (f.filename, { lines := f.content, readable := true }) := by
  rcases mem_stage_aux roz files [] p hp with h | h
  · cases h
  · exact h

theorem scanLines_map_sciezka (g : String → String) (fraza a : String) (s : Nat)
    (ls : List String) :
    (scanLines fraza a s ls).map (fun w => { w with sciezka := g w.sciezka })
      = scanLines fraza (g a) s ls := by
  induction ls generalizing s with
  | nil => rfl
  | cons l rest ih =>
    cases h : pyInStr fraza l <;> simp [scanLines, h, ih]

theorem takeWhile_all {α : Type} (p : α → Bool) :
    ∀ l : List α, (∀ c ∈ l, p c = true) → l.takeWhile p = l := by
  intro l h
  induction l with
  | nil => rfl
  | cons a t ih =>
    rw [List.takeWhile_cons, h a (List.mem_cons_self a t)]
    simp [ih fun c hc => h c (List.mem_cons_of_mem a hc)]

theorem takeWhile_until {α : Type} (p : α → Bool) (l post : List α) (b : α)
    (hl : ∀ c ∈ l, p c = true) (hb : p b = false) :
    (l ++ b :: post).takeWhile p = l := by
  induction l with
  | nil => simp [List.takeWhile_cons, hb]
  | cons a t ih =>
    rw [List.cons_append, List.takeWhile_cons, hl a (List.mem_cons_self a t)]
    simp [ih fun c hc => hl c (List.mem_cons_of_mem a hc)]

theorem basename_joinPath (td name : String) (h : ∀ c ∈ name.data, c ≠ '/') :
    basename (joinPath td name) = name := by
  have hq : ∀ c ∈ name.data.reverse, (fun c => decide (c ≠ '/')) c = true := by
    intro c hc
    simpa using h c (List.mem_reverse.mp hc)
  have hslash : (fun c => decide (c ≠ '/')) '/' = false := by decide
  unfold joinPath
  split
  · unfold basename
    rw [takeWhile_all _ _ hq, List.reverse_reverse]
  · split
    · next htd =>
      unfold basename
      rw [String.data_append, List.reverse_append]
      rcases hrev : td.data.reverse with _ | ⟨c, rest⟩
      · rw [← List.head?_reverse, hrev] at htd
        cases htd
      · have hc : c = '/' := by
          rw [← List.head?_reverse, hrev] at htd
          cases htd
          rfl
        rw [hc, takeWhile_until _ _ _ _ hq hslash, List.reverse_reverse]
    · unfold basename
      rw [String.data_append, String.data_append, List.reverse_append]
      have hd : (td.data ++ ("/").data).reverse = '/' :: td.data.reverse := by
        simp
      rw [hd, takeWhile_until _ _ _ _ hq hslash, List.reverse_reverse]

/-- Claim C9: a `/search-uploaded` request stages exactly the uploaded
files passing the extension filter (all of them when the filter is `""`)
into the temporary directory, scans exactly those, and reports each match
under the bare file name — for upload names containing no slash, the
response's results are precisely the scans of the staged files with the
temporary-directory prefix stripped. -/
theorem uploaded_only_filtered_scanned (fraza roz : String) (files : List UploadedFile)
    (temp_dir : String) (elapsed : ℚ)
    (h : ∀ f ∈ files, ∀ c ∈ f.filename.data, c ≠ '/') :
    search_uploaded_files fraza roz files temp_dir elapsed =
      .ok { wyniki := (stage roz files).flatMap fun p => scanLines fraza p.1 1 p.2.lines,
            czas_wyszukiwania := czytelny_czas elapsed,
            liczba_znalezionych :=
              ((stage roz files).flatMap fun p => scanLines fraza p.1 1 p.2.lines).length,
            status := "sukces" } := by
  have hmain : (przeszukajWalk roz fraza [(temp_dir, stage roz files)]).map
      (fun w => { w with sciezka := basename w.sciezka })
      = (stage roz files).flatMap fun p => scanLines fraza p.1 1 p.2.lines := by
    unfold przeszukajWalk
    rw [List.flatMap_cons, List.flatMap_nil, List.append_nil, List.map_flatMap]
    refine flatMap_congr_mem fun p hp => ?_
    rcases mem_stage hp with ⟨f, hf, hcond, hpf⟩
    have hends : pyEndswith p.1 roz = true := by
      rcases Bool.or_eq_true_iff.mp hcond with hc | hc
      · rw [hpf]
        exact hc
      · rw [of_decide_eq_true hc]
        exact pyEndswith_empty p.1
    have hread : p.2.readable = true := by
      rw [hpf]
    have hname : ∀ c ∈ p.1.data, c ≠ '/' := by
      rw [hpf]
      exact h f hf
    rw [hends, hread]
    dsimp only
    rw [if_pos rfl, if_pos rfl, scanLines_map_sciezka, basename_joinPath _ _ hname]
  unfold search_uploaded_files przeszukaj_katalog
  dsimp only
  rw [walkNode_dirOfListing, hmain]

theorem uploaded_only_filtered_scanned_witness :
    search_uploaded_files ("abc") (".txt")
        [{ filename := "a.txt", content := ["abc\n"] },
         { filename := "b.md", content := ["abc\n"] }] ("/tmp/tmpQ") 0 =
      .ok { wyniki := (stage (".txt")
              [{ filename := "a.txt", content := ["abc\n"] },
               { filename := "b.md", content := ["abc\n"] }]).flatMap
                fun p => scanLines ("abc") p.1 1 p.2.lines,
            czas_wyszukiwania := czytelny_czas 0,
            liczba_znalezionych := ((stage (".txt")
              [{ filename := "a.txt", content := ["abc\n"] },
               { filename := "b.md", content := ["abc\n"] }]).flatMap
                fun p => scanLines ("abc") p.1 1 p.2.lines).length,
            status := "sukces" } :=
  uploaded_only_filtered_scanned ("abc") (".txt")
    [{ filename := "a.txt", content := ["abc\n"] },
     { filename := "b.md", content := ["abc\n"] }] ("/tmp/tmpQ") 0 (by decide)

end App
